import Mathlib

/-!
Verification of the SAT-encoding engines of the IA02 repository.

The repository contains two Python files:
* `TP3/main.py` — a 9×9 Sudoku → CNF encoder/decoder (variable numbering,
  exactly-one clause generation, DIMACS serialisation, model decoding,
  solver invocation glue);
* `TP2/main.py` — a 3-colouring → DIMACS CNF generator.

Python integers in the relevant domains are nonnegative, so cell indices,
digits and propositional variables are embedded as `Nat`; literals, which
may be negated, as `Int`.  Python list mutation with a possible
`IndexError` is embedded as an `Option`-returning update (`none` models
the raised exception); `subprocess` execution is abstracted by the
`SolverRun` datatype recording what the external solver did.
-/

namespace Sudoku

abbrev Grid := List (List Int)
abbrev Clause := List Int
abbrev ClauseBase := List Clause
abbrev Model := List Int

/-- Embedding of `cell_to_variable(i, j, val)` = `i * 81 + j * 9 + (val - 1) + 1`.
On the atom domain (`val ≥ 1`) the Nat subtraction agrees with Python. -/
def cell_to_variable (i j val : Nat) : Nat :=
  i * 81 + j * 9 + (val - 1) + 1

/-- Embedding of `variable_to_cell(var)`:
`i = (var-1) // 81`, `j = ((var-1) // 9) % 9`, `val = (var-1) % 9`. -/
def variable_to_cell (var : Nat) : Nat × Nat × Nat :=
  ((var - 1) / (9 * 9), ((var - 1) / 9) % 9, (var - 1) % 9)

/-- Reading `grid[i][j]` (total, with default `0`; the source grids are 9×9
and all claims carry that hypothesis, under which the default is unused). -/
def getCell (g : Grid) (i j : Nat) : Int :=
  (g.getD i []).getD j 0

/-- Well-formedness of a grid: the 9×9 shape every source grid has. -/
def gridWF (g : Grid) : Prop :=
  g.length = 9 ∧ ∀ row ∈ g, row.length = 9

instance (g : Grid) : Decidable (gridWF g) := by
  unfold gridWF; infer_instance

/-- Embedding of `itertools.combinations(l, 2)` in iteration order. -/
def combinations2 {α : Type} : List α → List (α × α)
  | [] => []
  | x :: xs => xs.map (fun y => (x, y)) ++ combinations2 xs

/-- Embedding of `at_least_one(variables)` (the Python `.copy()` is the
identity on an immutable list; the parameter is renamed `vars` because
`variables` is reserved in Lean). -/
def at_least_one (vars : List Int) : Clause :=
  vars

/-- Embedding of `unique(variables)`: the at-least-one clause followed by
one clause `[-var1, -var2]` per combination pair. -/
def unique (vars : List Int) : ClauseBase :=
  [at_least_one vars] ++ (combinations2 vars).map (fun p => [-p.1, -p.2])

/-- Embedding of `create_cell_constraints()`. -/
def create_cell_constraints : ClauseBase :=
  (List.range 9).flatMap fun i =>
    (List.range 9).flatMap fun j =>
      unique ((List.range' 1 9).map fun k => (cell_to_variable i j k : Int))

/-- Embedding of `create_line_constraints()`. -/
def create_line_constraints : ClauseBase :=
  (List.range 9).flatMap fun i =>
    (List.range' 1 9).flatMap fun k =>
      unique ((List.range 9).map fun j => (cell_to_variable i j k : Int))

/-- Embedding of `create_column_constraints()`. -/
def create_column_constraints : ClauseBase :=
  (List.range 9).flatMap fun j =>
    (List.range' 1 9).flatMap fun k =>
      unique ((List.range 9).map fun i => (cell_to_variable i j k : Int))

/-- Embedding of `create_box_constraints()`. -/
def create_box_constraints : ClauseBase :=
  (List.range 3).flatMap fun box_row =>
    (List.range 3).flatMap fun box_columns =>
      (List.range' 1 9).flatMap fun k =>
        unique ((List.range 3).flatMap fun i =>
          (List.range 3).map fun j =>
            (cell_to_variable (box_row * 3 + i) (box_columns * 3 + j) k : Int))

/-- Embedding of `create_value_constraints(grid)`: one unit clause per
nonzero cell. -/
def create_value_constraints (grid : Grid) : ClauseBase :=
  (List.range 9).flatMap fun i =>
    (List.range 9).flatMap fun j =>
      if getCell grid i j ≠ 0 then
        [[(cell_to_variable i j (getCell grid i j).toNat : Int)]]
      else []

/-- Embedding of `generate_problem(grid)`: concatenation of the five
constraint families in source order. -/
def generate_problem (grid : Grid) : ClauseBase :=
  create_cell_constraints ++ create_line_constraints ++ create_column_constraints ++
    create_box_constraints ++ create_value_constraints grid

/-- Embedding of `clause_to_dimacs(clauses, nb_vars)`. -/
def clause_to_dimacs (clauses : ClauseBase) (nb_vars : Nat) : String :=
  let nb_clauses := clauses.length
  let header := "p cnf " ++ toString nb_vars ++ " " ++ toString nb_clauses ++ "\n"
  let clauses_lines := clauses.map fun clause =>
    String.intercalate " " (clause.map fun literal => toString literal) ++ " 0"
  header ++ String.intercalate "\n" clauses_lines ++ "\n"

/-- Embedding of the 9×9 all-zero grid `[[0]*9]*9` that `model_to_grid`
starts from. -/
def emptyGrid : Grid :=
  List.replicate 9 (List.replicate 9 0)

/-- Embedding of the Python statement `grid[i][j] = v`: `none` models the
`IndexError` raised when an index is out of range. -/
def gridSet (g : Grid) (i j : Nat) (v : Int) : Option Grid :=
  if i < g.length ∧ j < (g.getD i []).length then
    some (g.set i ((g.getD i []).set j v))
  else none

/-- Loop body of `model_to_grid`: each positive literal `var` writes
`val + 1` at the decoded cell; nonpositive literals are skipped. -/
def mtgLoop (g : Grid) : Model → Option Grid
  | [] => some g
  | var :: rest =>
    if 0 < var then
      match gridSet g (variable_to_cell var.toNat).1 (variable_to_cell var.toNat).2.1
          (((variable_to_cell var.toNat).2.2 : Int) + 1) with
      | some g2 => mtgLoop g2 rest
      | none => none
    else
      mtgLoop g rest

/-- Embedding of `model_to_grid(model)` (`none` models an uncaught
`IndexError` during decoding). -/
def model_to_grid (model : Model) : Option Grid :=
  mtgLoop emptyGrid model

/-- Abstraction of one run of the external SAT process inside
`solve_sudoku`: either the `subprocess` call raised (launch failure,
`CalledProcessError`, unparsable output, …) — the `except` branch — or
`exec_gophersat` returned a `(satisfiable, model)` pair. -/
inductive SolverRun where
  | launchFailure : SolverRun
  | returns (sat : Bool) (model : Model) : SolverRun

/-- Embedding of the result of `solve_sudoku` as a function of what the
solver run did.  The outer `Option` models an exception escaping
`solve_sudoku` itself (only possible while decoding a claimed model); the
`except` branch and the unsatisfiable branch both return `(False, None)`. -/
def solve_sudoku : SolverRun → Option (Bool × Option Grid)
  | .launchFailure => some (false, none)
  | .returns false _ => some (false, none)
  | .returns true model => (model_to_grid model).map fun g => (true, some g)

/-- Embedding of the reference grid `example` (named `example_grid` because
`example` is reserved in Lean); its first row contains the digit 5 twice. -/
def example_grid : Grid :=
  [[5, 3, 5, 0, 7, 0, 0, 0, 0],
   [6, 0, 0, 1, 9, 5, 0, 0, 0],
   [0, 9, 8, 0, 0, 0, 0, 6, 0],
   [8, 0, 0, 0, 6, 0, 0, 0, 3],
   [4, 0, 0, 8, 0, 3, 0, 0, 1],
   [7, 0, 0, 0, 2, 0, 0, 0, 6],
   [0, 6, 0, 0, 0, 0, 2, 8, 0],
   [0, 0, 0, 4, 1, 9, 0, 0, 5],
   [0, 0, 0, 0, 8, 0, 0, 7, 9]]

/-- Satisfaction of a literal by a truth assignment on variables. -/
def litSat (a : Nat → Bool) (l : Int) : Prop :=
  if 0 < l then a l.toNat = true else a l.natAbs = false

instance (a : Nat → Bool) (l : Int) : Decidable (litSat a l) := by
  unfold litSat; infer_instance

/-- Satisfaction of a clause: some literal of it is satisfied. -/
def clauseSat (a : Nat → Bool) (c : Clause) : Prop :=
  ∃ l ∈ c, litSat a l

end Sudoku

namespace Coloring

/-- Embedding of the fixed palette `couleurs_int = [1, 2, 3]` of
`TP2/main.py` (the `couleurs_to_int` lookup applied to `["R","G","B"]`). -/
def couleurs_int : List Nat := [1, 2, 3]

/-- Lines of the first loop of `generate_dimacs_cnf`: one at-least-one
clause line per vertex `j`, with variables `j * 3 + i` for each colour. -/
def vertexLines (sommets : List Nat) : List String :=
  sommets.map fun j =>
    String.intercalate " " ((couleurs_int.map fun i => j * 3 + i).map toString) ++ " 0\n"

/-- Lines of the second loop: per vertex, one clause per unordered colour
pair, `[-(j*3 + c1), -(j*3 + c2)]`. -/
def atMostOneLines (sommets : List Nat) : List String :=
  sommets.flatMap fun j =>
    (Sudoku.combinations2 couleurs_int).map fun pair =>
      String.intercalate " "
        (([-((j * 3 + pair.1 : Nat) : Int), -((j * 3 + pair.2 : Nat) : Int)]).map toString)
        ++ " 0\n"

/-- Lines of the third loop: per edge `(u,v)` and per colour `i`, the
clause `[-(u*3 + i), -(v*3 + i)]`. -/
def edgeLines (edges : List (Nat × Nat)) : List String :=
  edges.flatMap fun e =>
    couleurs_int.map fun i =>
      String.intercalate " "
        (([-((e.1 * 3 + i : Nat) : Int), -((e.2 * 3 + i : Nat) : Int)]).map toString)
        ++ " 0\n"

/-- Embedding of the local `variables = len(sommets) * len(couleurs)`. -/
def cnfVariables (sommets : List Nat) : Nat :=
  sommets.length * 3

/-- Embedding of the local
`c = len(sommets) * len(couleurs) + len(edges) * len(couleurs) + len(sommets)`. -/
def cnfClauseCount (sommets : List Nat) (edges : List (Nat × Nat)) : Nat :=
  sommets.length * 3 + edges.length * 3 + sommets.length

/-- The clause lines written to `graph.cnf` after the header, in source
order. -/
def cnfClauseLines (sommets : List Nat) (edges : List (Nat × Nat)) : List String :=
  vertexLines sommets ++ atMostOneLines sommets ++ edgeLines edges

/-- The full text written to `graph.cnf` by `generate_dimacs_cnf`. -/
def generate_dimacs_cnf (sommets : List Nat) (edges : List (Nat × Nat)) : String :=
  "p cnf " ++ toString (cnfVariables sommets) ++ " " ++
    toString (cnfClauseCount sommets edges) ++ "\n" ++
    String.join (cnfClauseLines sommets edges)

end Coloring

namespace Sudoku

/-- Number of nonzero (given) cells of a grid, in the iteration order of
`create_value_constraints`. -/
def numGivens (grid : Grid) : Nat :=
  ((List.range 9).flatMap fun i =>
    (List.range 9).flatMap fun j =>
      if getCell grid i j ≠ 0 then [(i, j)] else []).length

/-- The literal `l` is positive and decodes to cell `(i, j)`, so it writes
to that cell during `model_to_grid`. -/
def touches (l : Int) (i j : Nat) : Prop :=
  0 < l ∧ (variable_to_cell l.toNat).1 = i ∧ (variable_to_cell l.toNat).2.1 = j

instance (l : Int) (i j : Nat) : Decidable (touches l i j) := by
  unfold touches; infer_instance

/-- Some literal of the model writes to cell `(i, j)` during decoding. -/
def touched (M : Model) (i j : Nat) : Prop :=
  ∃ l ∈ M, touches l i j

instance (M : Model) (i j : Nat) : Decidable (touched M i j) := by
  unfold touched; infer_instance

/-- Truth value that variable `v` receives in the canonical model of a
solved grid `sol`: true iff `sol` holds the digit `v` asserts. -/
def solAgrees (sol : Grid) (v : Nat) : Bool :=
  getCell sol (variable_to_cell v).1 (variable_to_cell v).2.1 ==
    ((variable_to_cell v).2.2 : Int) + 1

/-- Canonical model of a solved grid: one signed literal per variable of
`[1, 729]`, positive exactly when the grid agrees. -/
def modelOf (sol : Grid) : Model :=
  (List.range 729).map fun t =>
    if solAgrees sol (t + 1) then ((t + 1 : Nat) : Int) else -((t + 1 : Nat) : Int)

/-- Predicate: `sol` is a fully and correctly solved 9×9 Sudoku grid
(every cell holds a digit of `[1,9]`, with existence and uniqueness of
each digit in every row, column and 3×3 box). -/
def validSolution (sol : Grid) : Prop :=
  gridWF sol ∧
  (∀ i < 9, ∀ j < 9, 1 ≤ getCell sol i j ∧ getCell sol i j ≤ 9) ∧
  (∀ i < 9, ∀ k < 9, ∃ j < 9, (getCell sol i j).toNat = k + 1) ∧
  (∀ i < 9, ∀ j1 < 9, ∀ j2 < 9, getCell sol i j1 = getCell sol i j2 → j1 = j2) ∧
  (∀ j < 9, ∀ k < 9, ∃ i < 9, (getCell sol i j).toNat = k + 1) ∧
  (∀ j < 9, ∀ i1 < 9, ∀ i2 < 9, getCell sol i1 j = getCell sol i2 j → i1 = i2) ∧
  (∀ br < 3, ∀ bc < 3, ∀ k < 9, ∃ p < 9,
    (getCell sol (br * 3 + p / 3) (bc * 3 + p % 3)).toNat = k + 1) ∧
  (∀ br < 3, ∀ bc < 3, ∀ p < 9, ∀ q < 9,
    getCell sol (br * 3 + p / 3) (bc * 3 + p % 3) =
      getCell sol (br * 3 + q / 3) (bc * 3 + q % 3) → p = q)

set_option synthInstance.maxHeartbeats 1000000 in
set_option synthInstance.maxSize 2048 in
instance (sol : Grid) : Decidable (validSolution sol) := by
  unfold validSolution; infer_instance

/-- Predicate: `sol` agrees with every given (nonzero) cell of `grid`. -/
def extendsGrid (sol grid : Grid) : Prop :=
  ∀ i < 9, ∀ j < 9, getCell grid i j ≠ 0 → getCell sol i j = getCell grid i j

instance (sol grid : Grid) : Decidable (extendsGrid sol grid) := by
  unfold extendsGrid; infer_instance

/-- Concrete fully solved grid (the cyclic pattern
`sol[i][j] = (i*3 + i/3 + j) % 9 + 1`), used to instantiate theorems. -/
def solvedGrid : Grid :=
  [[1, 2, 3, 4, 5, 6, 7, 8, 9],
   [4, 5, 6, 7, 8, 9, 1, 2, 3],
   [7, 8, 9, 1, 2, 3, 4, 5, 6],
   [2, 3, 4, 5, 6, 7, 8, 9, 1],
   [5, 6, 7, 8, 9, 1, 2, 3, 4],
   [8, 9, 1, 2, 3, 4, 5, 6, 7],
   [3, 4, 5, 6, 7, 8, 9, 1, 2],
   [6, 7, 8, 9, 1, 2, 3, 4, 5],
   [9, 1, 2, 3, 4, 5, 6, 7, 8]]

/-- Concrete puzzle with a single given digit (8 at the bottom-right
cell), consistent with `solvedGrid`. -/
def witnessGrid : Grid :=
  [[0, 0, 0, 0, 0, 0, 0, 0, 0],
   [0, 0, 0, 0, 0, 0, 0, 0, 0],
   [0, 0, 0, 0, 0, 0, 0, 0, 0],
   [0, 0, 0, 0, 0, 0, 0, 0, 0],
   [0, 0, 0, 0, 0, 0, 0, 0, 0],
   [0, 0, 0, 0, 0, 0, 0, 0, 0],
   [0, 0, 0, 0, 0, 0, 0, 0, 0],
   [0, 0, 0, 0, 0, 0, 0, 0, 0],
   [0, 0, 0, 0, 0, 0, 0, 0, 8]]

end Sudoku

namespace Sudoku

theorem combinations2_mem {α : Type} {x y : α} :
    ∀ {l : List α}, (x, y) ∈ combinations2 l → x ∈ l ∧ y ∈ l := by
  intro l
  induction l with
  | nil => intro h; simp [combinations2] at h
  | cons z xs ih =>
    intro h
    simp only [combinations2, List.mem_append, List.mem_map] at h
    rcases h with ⟨w, hw, heq⟩ | h
    · simp only [Prod.ext_iff] at heq
      obtain ⟨rfl, rfl⟩ := heq
      exact ⟨List.mem_cons_self _ _, List.mem_cons_of_mem _ hw⟩
    · exact ⟨List.mem_cons_of_mem _ (ih h).1, List.mem_cons_of_mem _ (ih h).2⟩

theorem combinations2_ne {α : Type} :
    ∀ {l : List α}, l.Nodup → ∀ {x y : α}, (x, y) ∈ combinations2 l → x ≠ y := by
  intro l
  induction l with
  | nil => intro _ x y h; simp [combinations2] at h
  | cons z xs ih =>
    intro hnd x y h
    rw [List.nodup_cons] at hnd
    simp only [combinations2, List.mem_append, List.mem_map] at h
    rcases h with ⟨w, hw, heq⟩ | h
    · simp only [Prod.ext_iff] at heq
      obtain ⟨rfl, rfl⟩ := heq
      intro hxy
      exact hnd.1 (hxy ▸ hw)
    · exact ih hnd.2 h

theorem mem_combinations2_get {α : Type} :
    ∀ (l : List α) (p q : Nat) (hpq : p < q) (hq : q < l.length),
      (l.get ⟨p, Nat.lt_trans hpq hq⟩, l.get ⟨q, hq⟩) ∈ combinations2 l := by
  intro l
  induction l with
  | nil => intro p q hpq hq; simp at hq
  | cons z xs ih =>
    intro p q hpq hq
    match p, q with
    | 0, q + 1 =>
      simp only [combinations2, List.mem_append]
      refine Or.inl (List.mem_map.mpr ⟨xs.get ⟨q, by simpa using hq⟩, List.get_mem _ _ _, rfl⟩)
    | p + 1, q + 1 =>
      simp only [combinations2, List.mem_append]
      exact Or.inr (ih p q (by omega) (by simpa using hq))

theorem mem_unique_cases {vars : List Int} {c : Clause} (h : c ∈ unique vars) :
    c = vars ∨ ∃ x y, (x, y) ∈ combinations2 vars ∧ c = [-x, -y] := by
  simp only [unique, at_least_one, List.mem_append, List.mem_map, List.mem_singleton] at h
  rcases h with rfl | ⟨⟨x, y⟩, hxy, rfl⟩
  · exact Or.inl rfl
  · exact Or.inr ⟨x, y, hxy, rfl⟩

theorem alo_mem_unique (vars : List Int) : vars ∈ unique vars := by
  simp [unique, at_least_one]

theorem pair_mem_unique {vars : List Int} {x y : Int} (h : (x, y) ∈ combinations2 vars) :
    [-x, -y] ∈ unique vars := by
  simp only [unique, List.mem_append, List.mem_map]
  exact Or.inr ⟨(x, y), h, rfl⟩

theorem unique_forall_literals {vars : List Int} {c : Clause} (h : c ∈ unique vars)
    {l : Int} (hl : l ∈ c) : ∃ v ∈ vars, l = v ∨ l = -v := by
  rcases mem_unique_cases h with rfl | ⟨x, y, hxy, rfl⟩
  · exact ⟨l, hl, Or.inl rfl⟩
  · have hm := combinations2_mem hxy
    simp only [List.mem_cons, List.mem_singleton, List.not_mem_nil, or_false] at hl
    rcases hl with rfl | rfl
    · exact ⟨x, hm.1, Or.inr rfl⟩
    · exact ⟨y, hm.2, Or.inr rfl⟩

theorem length_flatMap_const {α β : Type} {l : List α} {f : α → List β} {k : Nat}
    (h : ∀ x ∈ l, (f x).length = k) : (l.flatMap f).length = l.length * k := by
  induction l with
  | nil => simp
  | cons z xs ih =>
    simp only [List.flatMap_cons, List.length_append, List.length_cons]
    rw [h z (List.mem_cons_self _ _), ih (fun x hx => h x (List.mem_cons_of_mem _ hx))]
    ring

theorem length_flatMap_congr {α β γ : Type} {l : List α} {f : α → List β} {g : α → List γ}
    (h : ∀ x ∈ l, (f x).length = (g x).length) :
    (l.flatMap f).length = (l.flatMap g).length := by
  induction l with
  | nil => rfl
  | cons z xs ih =>
    simp only [List.flatMap_cons, List.length_append]
    rw [h z (List.mem_cons_self _ _), ih (fun x hx => h x (List.mem_cons_of_mem _ hx))]

theorem combinations2_length {α : Type} (l : List α) :
    (combinations2 l).length = Nat.choose l.length 2 := by
  induction l with
  | nil => rfl
  | cons z xs ih =>
    simp only [combinations2, List.length_append, List.length_map, ih, List.length_cons]
    rw [Nat.choose_succ_succ, Nat.choose_one_right]

theorem unique_length (vars : List Int) :
    (unique vars).length = 1 + Nat.choose vars.length 2 := by
  simp [unique, combinations2_length]
  omega

theorem create_cell_constraints_length : create_cell_constraints.length = 2997 := by
  unfold create_cell_constraints
  rw [length_flatMap_const (k := 333)]
  · simp
  intro i _
  rw [length_flatMap_const (k := 37)]
  · simp
  intro j _
  rw [unique_length]
  simp
  decide

theorem create_line_constraints_length : create_line_constraints.length = 2997 := by
  unfold create_line_constraints
  rw [length_flatMap_const (k := 333)]
  · simp
  intro i _
  rw [length_flatMap_const (k := 37)]
  · simp
  intro k _
  rw [unique_length]
  simp
  decide

theorem create_column_constraints_length : create_column_constraints.length = 2997 := by
  unfold create_column_constraints
  rw [length_flatMap_const (k := 333)]
  · simp
  intro j _
  rw [length_flatMap_const (k := 37)]
  · simp
  intro k _
  rw [unique_length]
  simp
  decide

theorem create_box_constraints_length : create_box_constraints.length = 2997 := by
  unfold create_box_constraints
  rw [length_flatMap_const (k := 999)]
  · simp
  intro br _
  rw [length_flatMap_const (k := 333)]
  · simp
  intro bc _
  rw [length_flatMap_const (k := 37)]
  · simp
  intro k _
  rw [unique_length, length_flatMap_const (k := 3)]
  · simp
    decide
  intro i _
  simp

theorem create_value_constraints_length (grid : Grid) :
    (create_value_constraints grid).length = numGivens grid := by
  unfold create_value_constraints numGivens
  apply length_flatMap_congr
  intro i _
  apply length_flatMap_congr
  intro j _
  split <;> rfl

theorem generate_problem_length (grid : Grid) :
    (generate_problem grid).length = 324 * 37 + numGivens grid := by
  unfold generate_problem
  simp only [List.length_append, create_cell_constraints_length,
    create_line_constraints_length, create_column_constraints_length,
    create_box_constraints_length, create_value_constraints_length]

end Sudoku

namespace Sudoku

theorem variable_to_cell_cell_to_variable {i j val : Nat} (hj : j < 9)
    (hval1 : 1 ≤ val) (hval9 : val ≤ 9) :
    variable_to_cell (cell_to_variable i j val) = (i, j, val - 1) := by
  unfold variable_to_cell cell_to_variable
  simp only [Prod.mk.injEq]
  refine ⟨?_, ?_, ?_⟩ <;> omega

theorem cell_to_variable_variable_to_cell {v : Nat} (h1 : 1 ≤ v) :
    cell_to_variable (variable_to_cell v).1 (variable_to_cell v).2.1
      ((variable_to_cell v).2.2 + 1) = v := by
  unfold variable_to_cell cell_to_variable
  simp only
  omega

theorem cell_to_variable_bounds {i j k : Nat} (hi : i < 9) (hj : j < 9)
    (hk1 : 1 ≤ k) (hk9 : k ≤ 9) :
    1 ≤ cell_to_variable i j k ∧ cell_to_variable i j k ≤ 729 := by
  unfold cell_to_variable
  omega

theorem variable_to_cell_bounds {v : Nat} (h729 : v ≤ 729) :
    (variable_to_cell v).1 < 9 ∧ (variable_to_cell v).2.1 < 9 ∧
      (variable_to_cell v).2.2 < 9 := by
  unfold variable_to_cell
  refine ⟨?_, ?_, ?_⟩ <;> simp <;> omega

theorem variable_to_cell_row_big {v : Nat} (h : 730 ≤ v) :
    8 < (variable_to_cell v).1 := by
  unfold variable_to_cell
  simp only
  omega

theorem cell_to_variable_inj {i1 j1 k1 i2 j2 k2 : Nat}
    (hj1 : j1 < 9) (hk11 : 1 ≤ k1) (hk19 : k1 ≤ 9)
    (hj2 : j2 < 9) (hk21 : 1 ≤ k2) (hk29 : k2 ≤ 9)
    (h : cell_to_variable i1 j1 k1 = cell_to_variable i2 j2 k2) :
    i1 = i2 ∧ j1 = j2 ∧ k1 = k2 := by
  unfold cell_to_variable at h
  omega

end Sudoku

namespace Sudoku

/-- Claim C1, counterexample: the round trip as claimed fails already at
the atom `(0, 0, 1)` — `variable_to_cell (cell_to_variable 0 0 1)` is
`(0, 0, 0)`, not `(0, 0, 1)` — and at the variable `2` —
`cell_to_variable` applied to `variable_to_cell 2 = (0, 0, 1)` returns
`1`, not `2`. -/
theorem C1_roundtrip_counterexample :
    variable_to_cell (cell_to_variable 0 0 1) ≠ (0, 0, 1) ∧
    cell_to_variable (variable_to_cell 2).1 (variable_to_cell 2).2.1
      (variable_to_cell 2).2.2 ≠ 2 := by
  decide

/-- Claim C1, amended: the numbering pair is a bijection up to the
off-by-one on the digit component: for every valid atom,
`variable_to_cell (cell_to_variable i j val) = (i, j, val - 1)` (the digit
is returned zero-based), and for every `v ∈ [1, 729]`, re-encoding
`variable_to_cell v` with the digit shifted back by one returns `v`. -/
theorem C1_roundtrip_amended (i j val v : Nat) (hj : j < 9)
    (hval1 : 1 ≤ val) (hval9 : val ≤ 9) (hv1 : 1 ≤ v) (hv729 : v ≤ 729) :
    variable_to_cell (cell_to_variable i j val) = (i, j, val - 1) ∧
    cell_to_variable (variable_to_cell v).1 (variable_to_cell v).2.1
      ((variable_to_cell v).2.2 + 1) = v :=
  ⟨variable_to_cell_cell_to_variable hj hval1 hval9,
   cell_to_variable_variable_to_cell hv1⟩

/-- Witness for the amended C1 at the atom `(2, 3, 7)` and variable `500`. -/
theorem C1_roundtrip_amended_witness :
    variable_to_cell (cell_to_variable 2 3 7) = (2, 3, 6) ∧
    cell_to_variable (variable_to_cell 500).1 (variable_to_cell 500).2.1
      ((variable_to_cell 500).2.2 + 1) = 500 :=
  C1_roundtrip_amended 2 3 7 500 (by decide) (by decide) (by decide) (by decide)
    (by decide)

/-- Claim C7: serializing the clause base `[[1, -2], [3]]` with variable
count 3 produces exactly `"p cnf 3 2\n1 -2 0\n3 0\n"`. -/
theorem C7_dimacs_format :
    clause_to_dimacs [[1, -2], [3]] 3 = "p cnf 3 2\n1 -2 0\n3 0\n" := by
  decide

/-- Claim C9: serializing an empty clause base with any variable count `n`
yields the header followed by one extra newline — a blank line belonging
to no clause. -/
theorem C9_empty_clause_base (n : Nat) :
    clause_to_dimacs [] n = "p cnf " ++ toString n ++ " 0\n\n" := by
  show "p cnf " ++ toString n ++ " " ++ toString (List.length ([] : ClauseBase)) ++ "\n" ++
      String.intercalate "\n" [] ++ "\n" = _
  have h : (" " : String) ++ ("0" ++ ("\n" ++ ("" ++ "\n"))) = " 0\n\n" := by decide
  rw [show toString (List.length ([] : ClauseBase)) = "0" from rfl,
    show String.intercalate "\n" [] = "" from rfl,
    String.append_assoc, String.append_assoc, String.append_assoc, String.append_assoc, h]

/-- Claim C8, counterexample: a solver launch failure and a solver
unsatisfiable report produce the very same value `(False, None)` at the
`solve_sudoku` interface, so the caller cannot distinguish them. -/
theorem C8_failure_paths_counterexample :
    solve_sudoku SolverRun.launchFailure = solve_sudoku (SolverRun.returns false []) :=
  rfl

/-- Claim C8, amended: both failure paths of `solve_sudoku` — the solver
process could not be launched (or raised), and the solver reported
Unsatisfiable — return the identical value `(False, None)`; the two
outcomes are distinguished only by the message printed, not by the result
at the interface. -/
theorem C8_failure_paths_amended (m : Model) :
    solve_sudoku SolverRun.launchFailure = some (false, none) ∧
    solve_sudoku (SolverRun.returns false m) = some (false, none) :=
  ⟨rfl, rfl⟩

end Sudoku

namespace Coloring

theorem vertexLines_length (sommets : List Nat) :
    (vertexLines sommets).length = sommets.length := by
  simp [vertexLines]

theorem atMostOneLines_length (sommets : List Nat) :
    (atMostOneLines sommets).length = sommets.length * 3 := by
  unfold atMostOneLines
  rw [Sudoku.length_flatMap_const (k := 3)]
  intro j _
  simp [Sudoku.combinations2, couleurs_int]

theorem edgeLines_length (edges : List (Nat × Nat)) :
    (edgeLines edges).length = edges.length * 3 := by
  unfold edgeLines
  rw [Sudoku.length_flatMap_const (k := 3)]
  intro e _
  simp [couleurs_int]

/-- Claim C6: for every graph (vertex list and edge list), the DIMACS
header written by `generate_dimacs_cnf` reports exactly `|V|*3` variables
and `|V| + |V|*C(3,2) + |E|*3` clauses, and this reported clause count
equals the number of clause lines actually written after the header. -/
theorem C6_dimacs_counts (sommets : List Nat) (edges : List (Nat × Nat)) :
    cnfVariables sommets = sommets.length * 3 ∧
    cnfClauseCount sommets edges =
      sommets.length + sommets.length * Nat.choose 3 2 + edges.length * 3 ∧
    cnfClauseCount sommets edges = (cnfClauseLines sommets edges).length ∧
    generate_dimacs_cnf sommets edges =
      "p cnf " ++ toString (cnfVariables sommets) ++ " " ++
        toString ((cnfClauseLines sommets edges).length) ++ "\n" ++
        String.join (cnfClauseLines sommets edges) := by
  have hlen : cnfClauseCount sommets edges = (cnfClauseLines sommets edges).length := by
    unfold cnfClauseCount cnfClauseLines
    simp only [List.length_append, vertexLines_length, atMostOneLines_length,
      edgeLines_length]
    omega
  refine ⟨rfl, ?_, hlen, ?_⟩
  · unfold cnfClauseCount
    have : Nat.choose 3 2 = 3 := by decide
    rw [this]
    omega
  · unfold generate_dimacs_cnf
    rw [hlen]

end Coloring

namespace Sudoku

theorem natAbs_bounds_of_var {l : Int} {n : Nat} (h1 : 1 ≤ n) (h729 : n ≤ 729)
    (hl : l = (n : Int) ∨ l = -(n : Int)) : 1 ≤ l.natAbs ∧ l.natAbs ≤ 729 := by
  rcases hl with rfl | rfl <;> simp <;> omega

theorem create_cell_constraints_literal_bounds {c : Clause}
    (hc : c ∈ create_cell_constraints) {l : Int} (hl : l ∈ c) :
    1 ≤ l.natAbs ∧ l.natAbs ≤ 729 := by
  unfold create_cell_constraints at hc
  rw [List.mem_flatMap] at hc
  obtain ⟨i, hi, hc⟩ := hc
  rw [List.mem_flatMap] at hc
  obtain ⟨j, hj, hc⟩ := hc
  rw [List.mem_range] at hi hj
  obtain ⟨v, hv, hlv⟩ := unique_forall_literals hc hl
  rw [List.mem_map] at hv
  obtain ⟨k, hk, rfl⟩ := hv
  rw [List.mem_range'_1] at hk
  have hb := cell_to_variable_bounds hi hj hk.1 (by omega)
  exact natAbs_bounds_of_var hb.1 hb.2 hlv

theorem create_line_constraints_literal_bounds {c : Clause}
    (hc : c ∈ create_line_constraints) {l : Int} (hl : l ∈ c) :
    1 ≤ l.natAbs ∧ l.natAbs ≤ 729 := by
  unfold create_line_constraints at hc
  rw [List.mem_flatMap] at hc
  obtain ⟨i, hi, hc⟩ := hc
  rw [List.mem_flatMap] at hc
  obtain ⟨k, hk, hc⟩ := hc
  rw [List.mem_range] at hi
  rw [List.mem_range'_1] at hk
  obtain ⟨v, hv, hlv⟩ := unique_forall_literals hc hl
  rw [List.mem_map] at hv
  obtain ⟨j, hj, rfl⟩ := hv
  rw [List.mem_range] at hj
  have hb := cell_to_variable_bounds hi hj hk.1 (by omega)
  exact natAbs_bounds_of_var hb.1 hb.2 hlv

theorem create_column_constraints_literal_bounds {c : Clause}
    (hc : c ∈ create_column_constraints) {l : Int} (hl : l ∈ c) :
    1 ≤ l.natAbs ∧ l.natAbs ≤ 729 := by
  unfold create_column_constraints at hc
  rw [List.mem_flatMap] at hc
  obtain ⟨j, hj, hc⟩ := hc
  rw [List.mem_flatMap] at hc
  obtain ⟨k, hk, hc⟩ := hc
  rw [List.mem_range] at hj
  rw [List.mem_range'_1] at hk
  obtain ⟨v, hv, hlv⟩ := unique_forall_literals hc hl
  rw [List.mem_map] at hv
  obtain ⟨i, hi, rfl⟩ := hv
  rw [List.mem_range] at hi
  have hb := cell_to_variable_bounds hi hj hk.1 (by omega)
  exact natAbs_bounds_of_var hb.1 hb.2 hlv

theorem create_box_constraints_literal_bounds {c : Clause}
    (hc : c ∈ create_box_constraints) {l : Int} (hl : l ∈ c) :
    1 ≤ l.natAbs ∧ l.natAbs ≤ 729 := by
  unfold create_box_constraints at hc
  rw [List.mem_flatMap] at hc
  obtain ⟨br, hbr, hc⟩ := hc
  rw [List.mem_flatMap] at hc
  obtain ⟨bc, hbc, hc⟩ := hc
  rw [List.mem_flatMap] at hc
  obtain ⟨k, hk, hc⟩ := hc
  rw [List.mem_range] at hbr hbc
  rw [List.mem_range'_1] at hk
  obtain ⟨v, hv, hlv⟩ := unique_forall_literals hc hl
  rw [List.mem_flatMap] at hv
  obtain ⟨i, hi, hv⟩ := hv
  rw [List.mem_map] at hv
  obtain ⟨j, hj, rfl⟩ := hv
  rw [List.mem_range] at hi hj
  have hb := cell_to_variable_bounds (i := br * 3 + i) (j := bc * 3 + j)
    (by omega) (by omega) hk.1 (by omega)
  exact natAbs_bounds_of_var hb.1 hb.2 hlv

theorem create_value_constraints_literal_bounds {grid : Grid}
    (hval : ∀ i < 9, ∀ j < 9, 0 ≤ getCell grid i j ∧ getCell grid i j ≤ 9)
    {c : Clause} (hc : c ∈ create_value_constraints grid) {l : Int} (hl : l ∈ c) :
    1 ≤ l.natAbs ∧ l.natAbs ≤ 729 := by
  unfold create_value_constraints at hc
  rw [List.mem_flatMap] at hc
  obtain ⟨i, hi, hc⟩ := hc
  rw [List.mem_flatMap] at hc
  obtain ⟨j, hj, hc⟩ := hc
  rw [List.mem_range] at hi hj
  by_cases hz : getCell grid i j ≠ 0
  · rw [if_pos hz, List.mem_singleton] at hc
    subst hc
    rw [List.mem_singleton] at hl
    subst hl
    have hrange := hval i hi j hj
    have hk1 : 1 ≤ (getCell grid i j).toNat := by omega
    have hk9 : (getCell grid i j).toNat ≤ 9 := by omega
    have hb := cell_to_variable_bounds hi hj hk1 hk9
    exact natAbs_bounds_of_var hb.1 hb.2 (Or.inl rfl)
  · rw [if_neg hz] at hc
    simp at hc

theorem generate_problem_literal_bounds {grid : Grid}
    (hval : ∀ i < 9, ∀ j < 9, 0 ≤ getCell grid i j ∧ getCell grid i j ≤ 9)
    {c : Clause} (hc : c ∈ generate_problem grid) {l : Int} (hl : l ∈ c) :
    1 ≤ l.natAbs ∧ l.natAbs ≤ 729 := by
  unfold generate_problem at hc
  simp only [List.mem_append] at hc
  rcases hc with ((((hc | hc) | hc) | hc) | hc)
  · exact create_cell_constraints_literal_bounds hc hl
  · exact create_line_constraints_literal_bounds hc hl
  · exact create_column_constraints_literal_bounds hc hl
  · exact create_box_constraints_literal_bounds hc hl
  · exact create_value_constraints_literal_bounds hval hc hl

end Sudoku

namespace Sudoku

/-- Claim C2, counterexample: already on the concrete single-given grid
`witnessGrid` (and in fact on every grid) the clause base has
`324 * 37` structural clauses plus the unit clauses, not `108 * 37` plus
the unit clauses — the rows, columns and boxes each contribute 81
exactly-one groups (9 units × 9 digits), not 9. -/
theorem C2_problem_size_counterexample :
    (generate_problem witnessGrid).length ≠ 108 * 37 + numGivens witnessGrid := by
  rw [generate_problem_length]
  omega

/-- Claim C2, amended: for every 9×9 grid with entries in `[0, 9]`, the
clause base of `generate_problem` contains exactly `324 * 37` clauses
plus one unit clause per nonzero (given) cell — there are `81 + 81 + 81 +
81 = 324` exactly-one groups of 37 clauses each — and the encoding uses
exactly 729 variables: every literal of the base names a variable of
`[1, 729]`. -/
theorem C2_problem_size (grid : Grid) (hwf : gridWF grid)
    (hval : ∀ i < 9, ∀ j < 9, 0 ≤ getCell grid i j ∧ getCell grid i j ≤ 9) :
    (generate_problem grid).length = 324 * 37 + numGivens grid ∧
    ∀ c ∈ generate_problem grid, ∀ l ∈ c, 1 ≤ l.natAbs ∧ l.natAbs ≤ 729 :=
  ⟨generate_problem_length grid,
   fun _ hc _ hl => generate_problem_literal_bounds hval hc hl⟩

/-- Witness for the amended C2 at the concrete single-given grid. -/
theorem C2_problem_size_witness :
    gridWF witnessGrid ∧
    (∀ i < 9, ∀ j < 9, 0 ≤ getCell witnessGrid i j ∧ getCell witnessGrid i j ≤ 9) ∧
    ((generate_problem witnessGrid).length = 324 * 37 + numGivens witnessGrid ∧
      ∀ c ∈ generate_problem witnessGrid, ∀ l ∈ c, 1 ≤ l.natAbs ∧ l.natAbs ≤ 729) :=
  ⟨by decide, by decide, C2_problem_size witnessGrid (by decide) (by decide)⟩

end Sudoku

namespace Sudoku

theorem litSat_pos {a : Nat → Bool} {x : Int} (hx : 0 < x) :
    litSat a x ↔ a x.toNat = true := by
  unfold litSat
  rw [if_pos hx]

theorem litSat_neg_pos {a : Nat → Bool} {x : Int} (hx : 0 < x) :
    litSat a (-x) ↔ a x.toNat = false := by
  unfold litSat
  rw [if_neg (by omega)]
  have h : (-x).natAbs = x.toNat := by omega
  rw [h]

theorem combinations2_total {α : Type} :
    ∀ {l : List α} {x y : α}, x ∈ l → y ∈ l → x ≠ y →
      (x, y) ∈ combinations2 l ∨ (y, x) ∈ combinations2 l := by
  intro l
  induction l with
  | nil => intro x y hx _ _; simp at hx
  | cons z xs ih =>
    intro x y hx hy hxy
    rcases List.mem_cons.mp hx with hxz | hx2
    · rcases List.mem_cons.mp hy with hyz | hy2
      · exact absurd (hxz.trans hyz.symm) hxy
      · subst hxz
        exact Or.inl (List.mem_append.mpr (Or.inl (List.mem_map.mpr ⟨y, hy2, rfl⟩)))
    · rcases List.mem_cons.mp hy with hyz | hy2
      · subst hyz
        exact Or.inr (List.mem_append.mpr (Or.inl (List.mem_map.mpr ⟨x, hx2, rfl⟩)))
      · rcases ih hx2 hy2 hxy with h | h
        · exact Or.inl (List.mem_append.mpr (Or.inr h))
        · exact Or.inr (List.mem_append.mpr (Or.inr h))

theorem two_true_falsifies {S : List Int} (hpos : ∀ v ∈ S, 0 < v)
    {a : Nat → Bool} {x y : Int} (hx : x ∈ S) (hy : y ∈ S) (hxy : x ≠ y)
    (hax : a x.toNat = true) (hay : a y.toNat = true) :
    ∃ c ∈ unique S, (∃ u w : Int, c = [-u, -w]) ∧ ¬ clauseSat a c := by
  have hpx := hpos x hx
  have hpy := hpos y hy
  rcases combinations2_total hx hy hxy with h | h
  · refine ⟨[-x, -y], pair_mem_unique h, ⟨x, y, rfl⟩, ?_⟩
    rintro ⟨l, hl, hsat⟩
    simp only [List.mem_cons, List.mem_singleton, List.not_mem_nil, or_false] at hl
    rcases hl with rfl | rfl
    · rw [litSat_neg_pos hpx] at hsat
      rw [hax] at hsat
      exact Bool.true_eq_false.mp hsat
    · rw [litSat_neg_pos hpy] at hsat
      rw [hay] at hsat
      exact Bool.true_eq_false.mp hsat
  · refine ⟨[-y, -x], pair_mem_unique h, ⟨y, x, rfl⟩, ?_⟩
    rintro ⟨l, hl, hsat⟩
    simp only [List.mem_cons, List.mem_singleton, List.not_mem_nil, or_false] at hl
    rcases hl with rfl | rfl
    · rw [litSat_neg_pos hpy] at hsat
      rw [hay] at hsat
      exact Bool.true_eq_false.mp hsat
    · rw [litSat_neg_pos hpx] at hsat
      rw [hax] at hsat
      exact Bool.true_eq_false.mp hsat

theorem countP_ge_two {p : Int → Bool} {S : List Int} (hnd : S.Nodup)
    {x y : Int} (hx : x ∈ S) (hy : y ∈ S) (hxy : x ≠ y)
    (hpx : p x = true) (hpy : p y = true) :
    2 ≤ S.countP p := by
  rw [List.countP_eq_length_filter]
  have hxf : x ∈ S.filter p := List.mem_filter.mpr ⟨hx, hpx⟩
  have hyf : y ∈ S.filter p := List.mem_filter.mpr ⟨hy, hpy⟩
  match hf : S.filter p with
  | [] => rw [hf] at hxf; simp at hxf
  | [u] =>
    rw [hf] at hxf hyf
    simp only [List.mem_singleton] at hxf hyf
    exact absurd (hxf.trans hyf.symm) hxy
  | u :: w :: t => simp

theorem unique_sat_iff {S : List Int} (hnd : S.Nodup) (hpos : ∀ v ∈ S, 0 < v)
    (a : Nat → Bool) :
    (∀ c ∈ unique S, clauseSat a c) ↔ S.countP (fun v => a v.toNat) = 1 := by
  constructor
  · intro hsat
    have halo := hsat S (alo_mem_unique S)
    obtain ⟨v, hv, hlv⟩ := halo
    rw [litSat_pos (hpos v hv)] at hlv
    have h1 : 0 < S.countP (fun v => a v.toNat) :=
      List.countP_pos_iff.mpr ⟨v, hv, hlv⟩
    have h2 : S.countP (fun v => a v.toNat) ≤ 1 := by
      by_contra hgt
      push_neg at hgt
      rw [List.countP_eq_length_filter] at hgt
      obtain ⟨u, w, t, hft⟩ : ∃ u w t, S.filter (fun v => a v.toNat) = u :: w :: t := by
        match hf : S.filter (fun v => a v.toNat) with
        | [] => rw [hf] at hgt; simp at hgt
        | [u] => rw [hf] at hgt; simp at hgt
        | u :: w :: t => exact ⟨u, w, t, hf⟩
      have hu : u ∈ S.filter (fun v => a v.toNat) := by rw [hft]; simp
      have hw : w ∈ S.filter (fun v => a v.toNat) := by rw [hft]; simp
      have hnd2 := hnd.filter (fun v => a v.toNat)
      rw [hft, List.nodup_cons] at hnd2
      have huw : u ≠ w := fun h => hnd2.1 (h ▸ List.mem_cons_self _ _)
      obtain ⟨hu1, hu2⟩ := List.mem_filter.mp hu
      obtain ⟨hw1, hw2⟩ := List.mem_filter.mp hw
      obtain ⟨c, hc, _, hcf⟩ := two_true_falsifies hpos hu1 hw1 huw hu2 hw2
      exact hcf (hsat c hc)
    omega
  · intro hcount c hc
    rcases mem_unique_cases hc with rfl | ⟨x, y, hxy, rfl⟩
    · obtain ⟨v, hv, hpv⟩ := List.countP_pos_iff.mp (by rw [hcount]; exact Nat.one_pos)
      exact ⟨v, hv, (litSat_pos (hpos v hv)).mpr hpv⟩
    · have hmem := combinations2_mem hxy
      have hne := combinations2_ne hnd hxy
      by_cases hax : a x.toNat = true
      · by_cases hay : a y.toNat = true
        · have h2 := countP_ge_two (p := fun v => a v.toNat) hnd hmem.1 hmem.2 hne hax hay
          omega
        · refine ⟨-y, by simp, ?_⟩
          rw [litSat_neg_pos (hpos y hmem.2)]
          simpa using hay
      · refine ⟨-x, by simp, ?_⟩
        rw [litSat_neg_pos (hpos x hmem.1)]
        simpa using hax

/-- Claim C3: for a list S of distinct positive variables, a truth
assignment satisfies every clause of `unique S` iff exactly one variable
of S is assigned true; and any assignment making two distinct variables of
S true falsifies at least one pairwise clause `[-x, -y]` of `unique S`. -/
theorem C3_unique_semantics (S : List Int) (a : Nat → Bool)
    (hnd : S.Nodup) (hpos : ∀ v ∈ S, 0 < v) :
    ((∀ c ∈ unique S, clauseSat a c) ↔ S.countP (fun v => a v.toNat) = 1) ∧
    (∀ x ∈ S, ∀ y ∈ S, x ≠ y → a x.toNat = true → a y.toNat = true →
      ∃ c ∈ unique S, (∃ u w : Int, c = [-u, -w]) ∧ ¬ clauseSat a c) :=
  ⟨unique_sat_iff hnd hpos a,
   fun _ hx _ hy hxy hax hay => two_true_falsifies hpos hx hy hxy hax hay⟩

/-- Witness for C3 at `S = [3, 5, 9]` with the assignment making exactly
the variable 5 true. -/
theorem C3_unique_semantics_witness :
    ([3, 5, 9] : List Int).Nodup ∧ (∀ v ∈ ([3, 5, 9] : List Int), 0 < v) ∧
    (((∀ c ∈ unique [3, 5, 9], clauseSat (fun n => n == 5) c) ↔
        ([3, 5, 9] : List Int).countP (fun v => (fun n : Nat => n == 5) v.toNat) = 1) ∧
      (∀ x ∈ ([3, 5, 9] : List Int), ∀ y ∈ ([3, 5, 9] : List Int), x ≠ y →
        (fun n : Nat => n == 5) x.toNat = true → (fun n : Nat => n == 5) y.toNat = true →
        ∃ c ∈ unique [3, 5, 9], (∃ u w : Int, c = [-u, -w]) ∧
          ¬ clauseSat (fun n => n == 5) c)) :=
  ⟨by decide, by decide,
   C3_unique_semantics [3, 5, 9] (fun n => n == 5) (by decide) (by decide)⟩

end Sudoku

namespace Sudoku

/-- Claim C5: the clause base built from the reference example grid, whose
first row contains the digit 5 at columns 0 and 2, is unsatisfiable: the
two unit clauses `[5]` and `[23]` force both variables true, while the
row constraint for row 0 and digit 5 contains the pairwise clause
`[-5, -23]`. -/
theorem C5_example_unsat :
    ¬ ∃ a : Nat → Bool, ∀ c ∈ generate_problem example_grid, clauseSat a c := by
  rintro ⟨a, hsat⟩
  have h1 : ([5] : Clause) ∈ generate_problem example_grid := by
    unfold generate_problem
    refine List.mem_append.mpr (Or.inr ?_)
    decide
  have h2 : ([23] : Clause) ∈ generate_problem example_grid := by
    unfold generate_problem
    refine List.mem_append.mpr (Or.inr ?_)
    decide
  have h3 : ([-5, -23] : Clause) ∈ generate_problem example_grid := by
    unfold generate_problem
    refine List.mem_append.mpr (Or.inl (List.mem_append.mpr (Or.inl
      (List.mem_append.mpr (Or.inl (List.mem_append.mpr (Or.inr ?_)))))))
    unfold create_line_constraints
    refine List.mem_flatMap.mpr ⟨0, by decide, ?_⟩
    refine List.mem_flatMap.mpr ⟨5, by decide, ?_⟩
    decide
  obtain ⟨l1, hl1, hs1⟩ := hsat _ h1
  obtain ⟨l2, hl2, hs2⟩ := hsat _ h2
  obtain ⟨l3, hl3, hs3⟩ := hsat _ h3
  simp only [List.mem_singleton] at hl1 hl2
  subst hl1
  subst hl2
  have ha5 : a 5 = true := by
    have h := (litSat_pos (show (0:Int) < 5 by decide)).mp hs1
    simpa using h
  have ha23 : a 23 = true := by
    have h := (litSat_pos (show (0:Int) < 23 by decide)).mp hs2
    simpa using h
  simp only [List.mem_cons, List.mem_singleton, List.not_mem_nil, or_false] at hl3
  rcases hl3 with rfl | rfl
  · have h := (litSat_neg_pos (x := 5) (by decide)).mp hs3
    rw [show ((5:Int).toNat) = 5 from rfl, ha5] at h
    exact Bool.true_eq_false.mp h
  · have h := (litSat_neg_pos (x := 23) (by decide)).mp hs3
    rw [show ((23:Int).toNat) = 23 from rfl, ha23] at h
    exact Bool.true_eq_false.mp h

end Sudoku

namespace Sudoku

theorem getD_set_same {α : Type} (l : List α) (n : Nat) (v d : α) (h : n < l.length) :
    (l.set n v).getD n d = v := by
  rw [List.getD_eq_getElem?_getD]
  simp [List.getElem?_set_self, h]

theorem getD_set_other {α : Type} (l : List α) (n m : Nat) (v d : α) (h : m ≠ n) :
    (l.set m v).getD n d = l.getD n d := by
  rw [List.getD_eq_getElem?_getD, List.getElem?_set_ne h, ← List.getD_eq_getElem?_getD]

theorem row_length {g : Grid} (hwf : gridWF g) {i : Nat} (hi : i < 9) :
    (g.getD i []).length = 9 := by
  have hig : i < g.length := by rw [hwf.1]; exact hi
  rw [List.getD_eq_getElem _ _ hig]
  exact hwf.2 _ (List.getElem_mem hig)

theorem gridSet_spec {g : Grid} (hwf : gridWF g) {i j : Nat} (hi : i < 9) (hj : j < 9)
    (v : Int) :
    ∃ g2, gridSet g i j v = some g2 ∧ gridWF g2 ∧ getCell g2 i j = v ∧
      ∀ i2 j2, i2 ≠ i ∨ j2 ≠ j → getCell g2 i2 j2 = getCell g i2 j2 := by
  have hig : i < g.length := by rw [hwf.1]; exact hi
  have hjr : j < (g.getD i []).length := by rw [row_length hwf hi]; exact hj
  refine ⟨g.set i ((g.getD i []).set j v), ?_, ?_, ?_, ?_⟩
  · unfold gridSet
    rw [if_pos ⟨hig, hjr⟩]
  · constructor
    · rw [List.length_set]; exact hwf.1
    · intro row hrow
      rcases List.mem_or_eq_of_mem_set hrow with h | h
      · exact hwf.2 row h
      · subst h
        rw [List.length_set]
        exact row_length hwf hi
  · unfold getCell
    rw [getD_set_same _ _ _ _ hig, getD_set_same _ _ _ _ hjr]
  · intro i2 j2 hne
    unfold getCell
    by_cases hii : i2 = i
    · subst hii
      have hjj : j2 ≠ j := by tauto
      rw [getD_set_same _ _ _ _ hig, getD_set_other _ _ _ _ _ (Ne.symm hjj)]
    · rw [getD_set_other _ _ _ _ _ (fun h => hii h.symm)]

theorem gridSet_none {g : Grid} (hwf : gridWF g) {i : Nat} (hi : 9 ≤ i) (j : Nat) (v : Int) :
    gridSet g i j v = none := by
  unfold gridSet
  rw [if_neg]
  rintro ⟨h1, _⟩
  rw [hwf.1] at h1
  omega

theorem mtgLoop_spec : ∀ (M : Model) (g : Grid),
    (∀ l ∈ M, 0 < l → l.toNat ≤ 729) → gridWF g →
    ∃ g2, mtgLoop g M = some g2 ∧ gridWF g2 ∧
      ∀ i j, i < 9 → j < 9 →
        (¬ touched M i j → getCell g2 i j = getCell g i j) ∧
        (touched M i j → ∃ l ∈ M, touches l i j ∧
          getCell g2 i j = ((variable_to_cell l.toNat).2.2 : Int) + 1) := by
  intro M
  induction M with
  | nil =>
    intro g _ hwf
    refine ⟨g, rfl, hwf, fun i j _ _ => ⟨fun _ => rfl, fun ht => ?_⟩⟩
    obtain ⟨l, hl, _⟩ := ht
    simp at hl
  | cons l rest ih =>
    intro g hpos hwf
    by_cases hl : 0 < l
    · have hb : l.toNat ≤ 729 := hpos l (List.mem_cons_self _ _) hl
      have hbt := variable_to_cell_bounds hb
      obtain ⟨gm, hset, hwfm, hcur, hother⟩ := gridSet_spec hwf hbt.1 hbt.2.1
        (((variable_to_cell l.toNat).2.2 : Int) + 1)
      obtain ⟨g2, hres, hwf2, hprop⟩ :=
        ih gm (fun x hx hp => hpos x (List.mem_cons_of_mem _ hx) hp) hwfm
      refine ⟨g2, ?_, hwf2, ?_⟩
      · unfold mtgLoop
        rw [if_pos hl, hset]
        exact hres
      · intro i j hi hj
        constructor
        · intro hnt
          have hntr : ¬ touched rest i j := by
            rintro ⟨x, hx, ht⟩
            exact hnt ⟨x, List.mem_cons_of_mem _ hx, ht⟩
          have hnl : ¬ touches l i j := by
            intro ht
            exact hnt ⟨l, List.mem_cons_self _ _, ht⟩
          rw [(hprop i j hi hj).1 hntr]
          refine hother i j ?_
          by_contra hcon
          push_neg at hcon
          exact hnl ⟨hl, hcon.1.symm, hcon.2.symm⟩
        · intro ht
          by_cases htr : touched rest i j
          · obtain ⟨x, hx, hxt, hvx⟩ := (hprop i j hi hj).2 htr
            exact ⟨x, List.mem_cons_of_mem _ hx, hxt, hvx⟩
          · have hlt : touches l i j := by
              obtain ⟨x, hx, hxt⟩ := ht
              rcases List.mem_cons.mp hx with hxl | hx2
              · exact hxl ▸ hxt
              · exact absurd ⟨x, hx2, hxt⟩ htr
            refine ⟨l, List.mem_cons_self _ _, hlt, ?_⟩
            rw [(hprop i j hi hj).1 htr, ← hlt.2.1, ← hlt.2.2]
            exact hcur
    · obtain ⟨g2, hres, hwf2, hprop⟩ :=
        ih g (fun x hx hp => hpos x (List.mem_cons_of_mem _ hx) hp) hwf
      refine ⟨g2, ?_, hwf2, ?_⟩
      · unfold mtgLoop
        rw [if_neg hl]
        exact hres
      intro i j hi hj
      constructor
      · intro hnt
        refine (hprop i j hi hj).1 ?_
        rintro ⟨x, hx, ht⟩
        exact hnt ⟨x, List.mem_cons_of_mem _ hx, ht⟩
      · intro ht
        have htr : touched rest i j := by
          obtain ⟨x, hx, hxt⟩ := ht
          rcases List.mem_cons.mp hx with hxl | hx2
          · exact absurd (hxl ▸ hxt).1 (hxl ▸ hl)
          · exact ⟨x, hx2, hxt⟩
        obtain ⟨x, hx, hxt, hvx⟩ := (hprop i j hi hj).2 htr
        exact ⟨x, List.mem_cons_of_mem _ hx, hxt, hvx⟩

theorem emptyGrid_wf : gridWF emptyGrid := by decide

theorem getCell_emptyGrid {i j : Nat} (hi : i < 9) (hj : j < 9) :
    getCell emptyGrid i j = 0 := by
  interval_cases i <;> interval_cases j <;> rfl

end Sudoku

namespace Sudoku

/-- Claim C10: for a model whose positive entries all lie in `[1, 729]`,
`model_to_grid` performs no out-of-range access (it returns a 9×9 grid)
and every cell touched by a positive literal holds a value of `[1, 9]`
while every other cell holds 0; and any positive entry above 729 decodes
to a row index above 8, on which the grid write is out of bounds. -/
theorem C10_decoder_safety (M : Model)
    (hpos : ∀ l ∈ M, 0 < l → l.toNat ≤ 729) :
    (∃ g, model_to_grid M = some g ∧ gridWF g ∧
      ∀ i j, i < 9 → j < 9 →
        (touched M i j → 1 ≤ getCell g i j ∧ getCell g i j ≤ 9) ∧
        (¬ touched M i j → getCell g i j = 0)) ∧
    (∀ l : Int, 729 < l → 8 < (variable_to_cell l.toNat).1 ∧
      ∀ g2 : Grid, gridWF g2 → ∀ j2 v, gridSet g2 (variable_to_cell l.toNat).1 j2 v = none) := by
  constructor
  · obtain ⟨g, hres, hwf, hprop⟩ := mtgLoop_spec M emptyGrid hpos emptyGrid_wf
    refine ⟨g, hres, hwf, fun i j hi hj => ⟨?_, ?_⟩⟩
    · intro ht
      obtain ⟨l, hlM, hlt, hval⟩ := (hprop i j hi hj).2 ht
      have hb := hpos l hlM hlt.1
      have hv9 : (variable_to_cell l.toNat).2.2 < 9 := (variable_to_cell_bounds hb).2.2
      rw [hval]
      refine ⟨?_, ?_⟩ <;> omega
    · intro hnt
      rw [(hprop i j hi hj).1 hnt]
      exact getCell_emptyGrid hi hj
  · intro l hl
    have h730 : 730 ≤ l.toNat := by omega
    have hrow := variable_to_cell_row_big h730
    refine ⟨hrow, ?_⟩
    intro g2 hwf2 j2 v
    exact gridSet_none hwf2 (by omega) j2 v

/-- Witness for C10 at the model `[5, -3]`. -/
theorem C10_decoder_safety_witness :
    (∀ l ∈ ([5, -3] : Model), 0 < l → l.toNat ≤ 729) ∧
    ((∃ g, model_to_grid [5, -3] = some g ∧ gridWF g ∧
      ∀ i j, i < 9 → j < 9 →
        (touched [5, -3] i j → 1 ≤ getCell g i j ∧ getCell g i j ≤ 9) ∧
        (¬ touched [5, -3] i j → getCell g i j = 0)) ∧
    (∀ l : Int, 729 < l → 8 < (variable_to_cell l.toNat).1 ∧
      ∀ g2 : Grid, gridWF g2 → ∀ j2 v, gridSet g2 (variable_to_cell l.toNat).1 j2 v = none)) :=
  ⟨by decide, C10_decoder_safety [5, -3] (by decide)⟩

end Sudoku

namespace Sudoku

theorem unit_mem_value_constraints {grid : Grid} {i j : Nat} (hi : i < 9) (hj : j < 9)
    (hz : getCell grid i j ≠ 0) :
    [(cell_to_variable i j (getCell grid i j).toNat : Int)] ∈ create_value_constraints grid := by
  unfold create_value_constraints
  refine List.mem_flatMap.mpr ⟨i, List.mem_range.mpr hi, ?_⟩
  refine List.mem_flatMap.mpr ⟨j, List.mem_range.mpr hj, ?_⟩
  rw [if_pos hz]
  exact List.mem_singleton.mpr rfl

theorem get_map_range1 {f : Nat → Int} {p : Nat} (h : p < ((List.range' 1 9).map f).length) :
    ((List.range' 1 9).map f).get ⟨p, h⟩ = f (1 + p) := by
  simp [List.get_eq_getElem, List.getElem_map, List.getElem_range']

theorem cell_pair_mem_cell_constraints {i j a b : Nat} (hi : i < 9) (hj : j < 9)
    (ha : 1 ≤ a) (hab : a < b) (hb : b ≤ 9) :
    [-(cell_to_variable i j a : Int), -(cell_to_variable i j b : Int)] ∈
      create_cell_constraints := by
  unfold create_cell_constraints
  refine List.mem_flatMap.mpr ⟨i, List.mem_range.mpr hi, ?_⟩
  refine List.mem_flatMap.mpr ⟨j, List.mem_range.mpr hj, ?_⟩
  have hlen : b - 1 < ((List.range' 1 9).map fun k => (cell_to_variable i j k : Int)).length := by
    simp
    omega
  have hpq : a - 1 < b - 1 := by omega
  have hmem := mem_combinations2_get _ (a - 1) (b - 1) hpq hlen
  rw [get_map_range1, get_map_range1] at hmem
  rw [show 1 + (a - 1) = a by omega, show 1 + (b - 1) = b by omega] at hmem
  exact pair_mem_unique hmem

theorem cell_pair_mem_problem (grid : Grid) {i j a b : Nat} (hi : i < 9) (hj : j < 9)
    (ha : 1 ≤ a) (hab : a < b) (hb : b ≤ 9) :
    [-(cell_to_variable i j a : Int), -(cell_to_variable i j b : Int)] ∈
      generate_problem grid := by
  unfold generate_problem
  exact List.mem_append.mpr (Or.inl (List.mem_append.mpr (Or.inl (List.mem_append.mpr
    (Or.inl (List.mem_append.mpr (Or.inl (cell_pair_mem_cell_constraints hi hj ha hab hb))))))))

/-- Claim C4: for every 9×9 grid with entries in `[0, 9]` and every model
(one signed literal per variable of `[1, 729]`) satisfying all clauses of
`generate_problem grid`, the decoded grid agrees with `grid` on every
nonzero (given) cell. -/
theorem C4_givens_preserved (grid : Grid) (M : Model)
    (hwf : gridWF grid)
    (hval : ∀ i < 9, ∀ j < 9, 0 ≤ getCell grid i j ∧ getCell grid i j ≤ 9)
    (hrange : ∀ l ∈ M, l ≠ 0 ∧ l.natAbs ≤ 729)
    (hcons : ∀ v : Nat, 1 ≤ v → v ≤ 729 → (((v : Int) ∈ M) ↔ ¬ (-(v : Int)) ∈ M))
    (hsat : ∀ c ∈ generate_problem grid, ∃ l ∈ c, l ∈ M) :
    ∃ g, model_to_grid M = some g ∧
      ∀ i < 9, ∀ j < 9, getCell grid i j ≠ 0 → getCell g i j = getCell grid i j := by
  have hpos : ∀ l ∈ M, 0 < l → l.toNat ≤ 729 := by
    intro l hl hp
    have h := hrange l hl
    omega
  obtain ⟨g, hres, hwfg, hprop⟩ := mtgLoop_spec M emptyGrid hpos emptyGrid_wf
  refine ⟨g, hres, ?_⟩
  intro i hi j hj hz
  have hkr := hval i hi j hj
  have hkn1 : 1 ≤ (getCell grid i j).toNat := by omega
  have hkn9 : (getCell grid i j).toNat ≤ 9 := by omega
  have hunit : [(cell_to_variable i j (getCell grid i j).toNat : Int)] ∈
      generate_problem grid := by
    unfold generate_problem
    exact List.mem_append.mpr (Or.inr (unit_mem_value_constraints hi hj hz))
  obtain ⟨l0, hl0, hl0M⟩ := hsat _ hunit
  rw [List.mem_singleton] at hl0
  subst hl0
  have hv0b := cell_to_variable_bounds hi hj hkn1 hkn9
  have hkey : ∀ l ∈ M, touches l i j →
      ((variable_to_cell l.toNat).2.2 : Int) + 1 = getCell grid i j := by
    intro l hlM hlt
    obtain ⟨hlp, hli, hlj⟩ := hlt
    have hlr := hrange l hlM
    have hw729 : l.toNat ≤ 729 := by omega
    have hw1 : 1 ≤ l.toNat := by omega
    have hlcast : ((l.toNat : Int)) = l := Int.toNat_of_nonneg (by omega)
    have hdb := (variable_to_cell_bounds hw729).2.2
    have henc : cell_to_variable i j ((variable_to_cell l.toNat).2.2 + 1) = l.toNat := by
      rw [← hli, ← hlj]
      exact cell_to_variable_variable_to_cell hw1
    by_cases hdk : (variable_to_cell l.toNat).2.2 + 1 = (getCell grid i j).toNat
    · omega
    · exfalso
      have hencb := cell_to_variable_bounds hi hj
        (show 1 ≤ (variable_to_cell l.toNat).2.2 + 1 by omega)
        (show (variable_to_cell l.toNat).2.2 + 1 ≤ 9 by omega)
      have hnc1 : ¬ (-(cell_to_variable i j (getCell grid i j).toNat : Int)) ∈ M :=
        (hcons _ hv0b.1 hv0b.2).mp hl0M
      have hnc2 : ¬ (-(cell_to_variable i j ((variable_to_cell l.toNat).2.2 + 1) : Int)) ∈ M := by
        refine (hcons _ hencb.1 hencb.2).mp ?_
        rw [henc, hlcast]
        exact hlM
      rcases Nat.lt_or_ge ((variable_to_cell l.toNat).2.2 + 1) (getCell grid i j).toNat
        with hlt2 | hge
      · obtain ⟨l2, hl2, hl2M⟩ := hsat _ (cell_pair_mem_problem grid hi hj
          (show 1 ≤ (variable_to_cell l.toNat).2.2 + 1 by omega) hlt2 hkn9)
        simp only [List.mem_cons, List.mem_singleton, List.not_mem_nil, or_false] at hl2
        rcases hl2 with rfl | rfl
        · exact hnc2 hl2M
        · exact hnc1 hl2M
      · have hlt3 : (getCell grid i j).toNat < (variable_to_cell l.toNat).2.2 + 1 := by omega
        obtain ⟨l2, hl2, hl2M⟩ := hsat _ (cell_pair_mem_problem grid hi hj
          hkn1 hlt3 (show (variable_to_cell l.toNat).2.2 + 1 ≤ 9 by omega))
        simp only [List.mem_cons, List.mem_singleton, List.not_mem_nil, or_false] at hl2
        rcases hl2 with rfl | rfl
        · exact hnc1 hl2M
        · exact hnc2 hl2M
  have hvc := variable_to_cell_cell_to_variable (i := i) hj hkn1 hkn9
  have htch : touched M i j := by
    refine ⟨(cell_to_variable i j (getCell grid i j).toNat : Int), hl0M, ?_, ?_, ?_⟩
    · exact_mod_cast Nat.lt_of_lt_of_le Nat.zero_lt_one hv0b.1
    · rw [Int.toNat_natCast, hvc]
    · rw [Int.toNat_natCast, hvc]
  obtain ⟨l, hlM, hlt, hvg⟩ := (hprop i j hi hj).2 htch
  rw [hvg, hkey l hlM hlt]

end Sudoku

namespace Sudoku

theorem pos_mem_modelOf {sol : Grid} {v : Nat} (h1 : 1 ≤ v) (h729 : v ≤ 729) :
    ((v : Int) ∈ modelOf sol) ↔ solAgrees sol v = true := by
  unfold modelOf
  rw [List.mem_map]
  constructor
  · rintro ⟨t, ht, heq⟩
    rw [List.mem_range] at ht
    by_cases hag : solAgrees sol (t + 1) = true
    · rw [if_pos hag] at heq
      have h : t + 1 = v := by exact_mod_cast heq
      rwa [h] at hag
    · rw [if_neg hag] at heq
      exfalso
      omega
  · intro hag
    refine ⟨v - 1, List.mem_range.mpr (by omega), ?_⟩
    rw [show v - 1 + 1 = v by omega, if_pos hag]

theorem neg_mem_modelOf {sol : Grid} {v : Nat} (h1 : 1 ≤ v) (h729 : v ≤ 729) :
    ((-(v : Int)) ∈ modelOf sol) ↔ solAgrees sol v = false := by
  unfold modelOf
  rw [List.mem_map]
  constructor
  · rintro ⟨t, ht, heq⟩
    rw [List.mem_range] at ht
    by_cases hag : solAgrees sol (t + 1) = true
    · rw [if_pos hag] at heq
      exfalso
      omega
    · rw [if_neg hag] at heq
      have h : t + 1 = v := by omega
      rw [← h]
      simpa using hag
  · intro hag
    refine ⟨v - 1, List.mem_range.mpr (by omega), ?_⟩
    rw [show v - 1 + 1 = v by omega, if_neg (by simp [hag])]

theorem modelOf_range {sol : Grid} {l : Int} (h : l ∈ modelOf sol) :
    l ≠ 0 ∧ l.natAbs ≤ 729 := by
  unfold modelOf at h
  rw [List.mem_map] at h
  obtain ⟨t, ht, heq⟩ := h
  rw [List.mem_range] at ht
  have h2 : l = ((t + 1 : Nat) : Int) ∨ l = -((t + 1 : Nat) : Int) := by
    by_cases hag : solAgrees sol (t + 1) = true
    · rw [if_pos hag] at heq
      exact Or.inl heq.symm
    · rw [if_neg hag] at heq
      exact Or.inr heq.symm
  rcases h2 with rfl | rfl <;> constructor <;> omega

theorem modelOf_consistent {sol : Grid} {v : Nat} (h1 : 1 ≤ v) (h729 : v ≤ 729) :
    ((v : Int) ∈ modelOf sol) ↔ ¬ ((-(v : Int)) ∈ modelOf sol) := by
  rw [pos_mem_modelOf h1 h729, neg_mem_modelOf h1 h729]
  simp

theorem solAgrees_encode {sol : Grid} {i j d : Nat} (hj : j < 9) (hd1 : 1 ≤ d) (hd9 : d ≤ 9) :
    solAgrees sol (cell_to_variable i j d) = (getCell sol i j == (d : Int)) := by
  unfold solAgrees
  rw [variable_to_cell_cell_to_variable hj hd1 hd9]
  simp only
  congr 1
  omega

theorem unique_sat_by_model {sol : Grid} {S : List Int} {c : Clause}
    (hc : c ∈ unique S)
    (hnd : S.Nodup)
    (hbounds : ∀ v ∈ S, ∃ n : Nat, v = (n : Int) ∧ 1 ≤ n ∧ n ≤ 729)
    (halo : ∃ v ∈ S, ∃ n : Nat, v = (n : Int) ∧ 1 ≤ n ∧ n ≤ 729 ∧ solAgrees sol n = true)
    (huniq : ∀ x ∈ S, ∀ y ∈ S, x ≠ y →
      ¬(solAgrees sol x.toNat = true ∧ solAgrees sol y.toNat = true)) :
    ∃ l ∈ c, l ∈ modelOf sol := by
  rcases mem_unique_cases hc with rfl | ⟨x, y, hxy, rfl⟩
  · obtain ⟨v, hv, n, rfl, hn1, hn729, hag⟩ := halo
    exact ⟨_, hv, (pos_mem_modelOf hn1 hn729).mpr hag⟩
  · have hm := combinations2_mem hxy
    have hne := combinations2_ne hnd hxy
    obtain ⟨nx, hxe, hx1, hx729⟩ := hbounds x hm.1
    obtain ⟨ny, hye, hy1, hy729⟩ := hbounds y hm.2
    by_cases hagx : solAgrees sol x.toNat = true
    · have hagy : solAgrees sol y.toNat = false := by
        rcases Bool.eq_false_or_eq_true (solAgrees sol y.toNat) with h | h
        · exact absurd ⟨hagx, h⟩ (huniq x hm.1 y hm.2 hne)
        · exact h
      refine ⟨-y, by simp, ?_⟩
      subst hye
      refine (neg_mem_modelOf hy1 hy729).mpr ?_
      simpa using hagy
    · have hagx2 : solAgrees sol x.toNat = false := by
        rcases Bool.eq_false_or_eq_true (solAgrees sol x.toNat) with h | h
        · exact absurd h hagx
        · exact h
      refine ⟨-x, by simp, ?_⟩
      subst hxe
      refine (neg_mem_modelOf hx1 hx729).mpr ?_
      simpa using hagx2

end Sudoku

namespace Sudoku

theorem cell_family_sat {sol : Grid} (hs : validSolution sol) {i j : Nat}
    (hi : i < 9) (hj : j < 9) {c : Clause}
    (hc : c ∈ unique ((List.range' 1 9).map fun k => (cell_to_variable i j k : Int))) :
    ∃ l ∈ c, l ∈ modelOf sol := by
  obtain ⟨hwf, hcell, hrowE, hrowU, hcolE, hcolU, hboxE, hboxU⟩ := hs
  apply unique_sat_by_model hc
  · refine List.Nodup.map_on ?_ (List.nodup_range' 1 9)
    intro k1 hk1 k2 hk2 heq
    rw [List.mem_range'_1] at hk1 hk2
    have h2 : cell_to_variable i j k1 = cell_to_variable i j k2 := by exact_mod_cast heq
    unfold cell_to_variable at h2
    omega
  · intro v hv
    rw [List.mem_map] at hv
    obtain ⟨k, hk, rfl⟩ := hv
    rw [List.mem_range'_1] at hk
    have hb := cell_to_variable_bounds hi hj hk.1 (by omega)
    exact ⟨_, rfl, hb.1, hb.2⟩
  · have hc2 := hcell i hi j hj
    have hb := cell_to_variable_bounds hi hj
      (show 1 ≤ (getCell sol i j).toNat by omega)
      (show (getCell sol i j).toNat ≤ 9 by omega)
    refine ⟨(cell_to_variable i j (getCell sol i j).toNat : Int), ?_, _, rfl, hb.1, hb.2, ?_⟩
    · rw [List.mem_map]
      exact ⟨(getCell sol i j).toNat, List.mem_range'_1.mpr ⟨by omega, by omega⟩, rfl⟩
    · rw [solAgrees_encode hj (by omega) (by omega), beq_iff_eq]
      exact (Int.toNat_of_nonneg (by omega)).symm
  · rintro x hx y hy hne ⟨hax, hay⟩
    rw [List.mem_map] at hx hy
    obtain ⟨k1, hk1, rfl⟩ := hx
    obtain ⟨k2, hk2, rfl⟩ := hy
    rw [List.mem_range'_1] at hk1 hk2
    rw [Int.toNat_natCast, solAgrees_encode hj hk1.1 (by omega), beq_iff_eq] at hax
    rw [Int.toNat_natCast, solAgrees_encode hj hk2.1 (by omega), beq_iff_eq] at hay
    have hk12 : k1 = k2 := by
      have h12 : (k1 : Int) = k2 := by rw [← hax, ← hay]
      exact_mod_cast h12
    exact hne (by rw [hk12])

theorem line_family_sat {sol : Grid} (hs : validSolution sol) {i k : Nat}
    (hi : i < 9) (hk1 : 1 ≤ k) (hk9 : k ≤ 9) {c : Clause}
    (hc : c ∈ unique ((List.range 9).map fun j => (cell_to_variable i j k : Int))) :
    ∃ l ∈ c, l ∈ modelOf sol := by
  obtain ⟨hwf, hcell, hrowE, hrowU, hcolE, hcolU, hboxE, hboxU⟩ := hs
  apply unique_sat_by_model hc
  · refine List.Nodup.map_on ?_ (List.nodup_range 9)
    intro j1 hj1 j2 hj2 heq
    rw [List.mem_range] at hj1 hj2
    have h2 : cell_to_variable i j1 k = cell_to_variable i j2 k := by exact_mod_cast heq
    unfold cell_to_variable at h2
    omega
  · intro v hv
    rw [List.mem_map] at hv
    obtain ⟨j, hj, rfl⟩ := hv
    rw [List.mem_range] at hj
    have hb := cell_to_variable_bounds hi hj hk1 hk9
    exact ⟨_, rfl, hb.1, hb.2⟩
  · obtain ⟨j, hj, hjv⟩ := hrowE i hi (k - 1) (by omega)
    rw [show k - 1 + 1 = k by omega] at hjv
    have hb := cell_to_variable_bounds hi hj hk1 hk9
    refine ⟨(cell_to_variable i j k : Int), ?_, _, rfl, hb.1, hb.2, ?_⟩
    · rw [List.mem_map]
      exact ⟨j, List.mem_range.mpr hj, rfl⟩
    · rw [solAgrees_encode hj hk1 hk9, beq_iff_eq]
      have hnn := hcell i hi j hj
      omega
  · rintro x hx y hy hne ⟨hax, hay⟩
    rw [List.mem_map] at hx hy
    obtain ⟨j1, hj1, rfl⟩ := hx
    obtain ⟨j2, hj2, rfl⟩ := hy
    rw [List.mem_range] at hj1 hj2
    rw [Int.toNat_natCast, solAgrees_encode hj1 hk1 hk9, beq_iff_eq] at hax
    rw [Int.toNat_natCast, solAgrees_encode hj2 hk1 hk9, beq_iff_eq] at hay
    have hj12 : j1 = j2 := hrowU i hi j1 hj1 j2 hj2 (by rw [hax, hay])
    exact hne (by rw [hj12])

theorem column_family_sat {sol : Grid} (hs : validSolution sol) {j k : Nat}
    (hj : j < 9) (hk1 : 1 ≤ k) (hk9 : k ≤ 9) {c : Clause}
    (hc : c ∈ unique ((List.range 9).map fun i => (cell_to_variable i j k : Int))) :
    ∃ l ∈ c, l ∈ modelOf sol := by
  obtain ⟨hwf, hcell, hrowE, hrowU, hcolE, hcolU, hboxE, hboxU⟩ := hs
  apply unique_sat_by_model hc
  · refine List.Nodup.map_on ?_ (List.nodup_range 9)
    intro i1 hi1 i2 hi2 heq
    rw [List.mem_range] at hi1 hi2
    have h2 : cell_to_variable i1 j k = cell_to_variable i2 j k := by exact_mod_cast heq
    unfold cell_to_variable at h2
    omega
  · intro v hv
    rw [List.mem_map] at hv
    obtain ⟨i, hi, rfl⟩ := hv
    rw [List.mem_range] at hi
    have hb := cell_to_variable_bounds hi hj hk1 hk9
    exact ⟨_, rfl, hb.1, hb.2⟩
  · obtain ⟨i, hi, hiv⟩ := hcolE j hj (k - 1) (by omega)
    rw [show k - 1 + 1 = k by omega] at hiv
    have hb := cell_to_variable_bounds hi hj hk1 hk9
    refine ⟨(cell_to_variable i j k : Int), ?_, _, rfl, hb.1, hb.2, ?_⟩
    · rw [List.mem_map]
      exact ⟨i, List.mem_range.mpr hi, rfl⟩
    · rw [solAgrees_encode hj hk1 hk9, beq_iff_eq]
      have hnn := hcell i hi j hj
      omega
  · rintro x hx y hy hne ⟨hax, hay⟩
    rw [List.mem_map] at hx hy
    obtain ⟨i1, hi1, rfl⟩ := hx
    obtain ⟨i2, hi2, rfl⟩ := hy
    rw [List.mem_range] at hi1 hi2
    rw [Int.toNat_natCast, solAgrees_encode hj hk1 hk9, beq_iff_eq] at hax
    rw [Int.toNat_natCast, solAgrees_encode hj hk1 hk9, beq_iff_eq] at hay
    have hi12 : i1 = i2 := hcolU j hj i1 hi1 i2 hi2 (by rw [hax, hay])
    exact hne (by rw [hi12])

end Sudoku

namespace Sudoku

theorem pairIdx_mem {p : Nat × Nat}
    (hp : p ∈ (List.range 3).flatMap fun a => (List.range 3).map fun b => (a, b)) :
    p.1 < 3 ∧ p.2 < 3 := by
  rw [List.mem_flatMap] at hp
  obtain ⟨a, ha, hp⟩ := hp
  rw [List.mem_map] at hp
  obtain ⟨b, hb, rfl⟩ := hp
  rw [List.mem_range] at ha hb
  exact ⟨ha, hb⟩

theorem box_family_sat {sol : Grid} (hs : validSolution sol) {br bc k : Nat}
    (hbr : br < 3) (hbc : bc < 3) (hk1 : 1 ≤ k) (hk9 : k ≤ 9) {c : Clause}
    (hc : c ∈ unique ((List.range 3).flatMap fun i =>
      (List.range 3).map fun j =>
        (cell_to_variable (br * 3 + i) (bc * 3 + j) k : Int))) :
    ∃ l ∈ c, l ∈ modelOf sol := by
  obtain ⟨hwf, hcell, hrowE, hrowU, hcolE, hcolU, hboxE, hboxU⟩ := hs
  have hmemS : ∀ v : Int, (v ∈ (List.range 3).flatMap fun i =>
      (List.range 3).map fun j =>
        (cell_to_variable (br * 3 + i) (bc * 3 + j) k : Int)) ↔
      ∃ a < 3, ∃ b < 3, v = (cell_to_variable (br * 3 + a) (bc * 3 + b) k : Int) := by
    intro v
    rw [List.mem_flatMap]
    constructor
    · rintro ⟨a, ha, hv⟩
      rw [List.mem_map] at hv
      obtain ⟨b, hb, rfl⟩ := hv
      rw [List.mem_range] at ha hb
      exact ⟨a, ha, b, hb, rfl⟩
    · rintro ⟨a, ha, b, hb, rfl⟩
      exact ⟨a, List.mem_range.mpr ha, List.mem_map.mpr ⟨b, List.mem_range.mpr hb, rfl⟩⟩
  apply unique_sat_by_model hc
  · rw [show ((List.range 3).flatMap fun i =>
        (List.range 3).map fun j =>
          (cell_to_variable (br * 3 + i) (bc * 3 + j) k : Int)) =
        ((List.range 3).flatMap fun a => (List.range 3).map fun b => (a, b)).map
          (fun p => (cell_to_variable (br * 3 + p.1) (bc * 3 + p.2) k : Int)) by
      rw [List.map_flatMap]
      simp only [List.map_map]
      rfl]
    refine List.Nodup.map_on ?_ (by decide)
    intro p1 hp1 p2 hp2 heq
    obtain ⟨ha1, hb1⟩ := pairIdx_mem hp1
    obtain ⟨ha2, hb2⟩ := pairIdx_mem hp2
    have h2 : cell_to_variable (br * 3 + p1.1) (bc * 3 + p1.2) k =
        cell_to_variable (br * 3 + p2.1) (bc * 3 + p2.2) k := by exact_mod_cast heq
    have h3 := cell_to_variable_inj (by omega) hk1 hk9 (by omega) hk1 hk9 h2
    have hfst : p1.1 = p2.1 := by omega
    have hsnd : p1.2 = p2.2 := by omega
    exact Prod.ext hfst hsnd
  · intro v hv
    rw [hmemS] at hv
    obtain ⟨a, ha, b, hb, rfl⟩ := hv
    have hbnd := cell_to_variable_bounds (i := br * 3 + a) (j := bc * 3 + b)
      (by omega) (by omega) hk1 hk9
    exact ⟨_, rfl, hbnd.1, hbnd.2⟩
  · obtain ⟨p, hp, hpv⟩ := hboxE br hbr bc hbc (k - 1) (by omega)
    rw [show k - 1 + 1 = k by omega] at hpv
    have hbnd := cell_to_variable_bounds (i := br * 3 + p / 3) (j := bc * 3 + p % 3)
      (by omega) (by omega) hk1 hk9
    refine ⟨(cell_to_variable (br * 3 + p / 3) (bc * 3 + p % 3) k : Int), ?_, _, rfl,
      hbnd.1, hbnd.2, ?_⟩
    · rw [hmemS]
      exact ⟨p / 3, by omega, p % 3, by omega, rfl⟩
    · rw [solAgrees_encode (by omega) hk1 hk9, beq_iff_eq]
      have hnn := hcell (br * 3 + p / 3) (by omega) (bc * 3 + p % 3) (by omega)
      omega
  · rintro x hx y hy hne ⟨hax, hay⟩
    rw [hmemS] at hx hy
    obtain ⟨a1, ha1, b1, hb1, rfl⟩ := hx
    obtain ⟨a2, ha2, b2, hb2, rfl⟩ := hy
    rw [Int.toNat_natCast, solAgrees_encode (by omega) hk1 hk9, beq_iff_eq] at hax
    rw [Int.toNat_natCast, solAgrees_encode (by omega) hk1 hk9, beq_iff_eq] at hay
    have hcells : getCell sol (br * 3 + (a1 * 3 + b1) / 3) (bc * 3 + (a1 * 3 + b1) % 3) =
        getCell sol (br * 3 + (a2 * 3 + b2) / 3) (bc * 3 + (a2 * 3 + b2) % 3) := by
      rw [show (a1 * 3 + b1) / 3 = a1 by omega, show (a1 * 3 + b1) % 3 = b1 by omega,
        show (a2 * 3 + b2) / 3 = a2 by omega, show (a2 * 3 + b2) % 3 = b2 by omega,
        hax, hay]
    have hpq := hboxU br hbr bc hbc (a1 * 3 + b1) (by omega) (a2 * 3 + b2) (by omega) hcells
    have he1 : a1 = a2 := by omega
    have he2 : b1 = b2 := by omega
    exact hne (by rw [he1, he2])

end Sudoku

namespace Sudoku

theorem modelOf_satisfies {sol grid : Grid} (hs : validSolution sol)
    (hext : extendsGrid sol grid) :
    ∀ c ∈ generate_problem grid, ∃ l ∈ c, l ∈ modelOf sol := by
  intro c hc
  unfold generate_problem at hc
  simp only [List.mem_append] at hc
  rcases hc with ((((hc | hc) | hc) | hc) | hc)
  · unfold create_cell_constraints at hc
    rw [List.mem_flatMap] at hc
    obtain ⟨i, hi, hc⟩ := hc
    rw [List.mem_flatMap] at hc
    obtain ⟨j, hj, hc⟩ := hc
    rw [List.mem_range] at hi hj
    exact cell_family_sat hs hi hj hc
  · unfold create_line_constraints at hc
    rw [List.mem_flatMap] at hc
    obtain ⟨i, hi, hc⟩ := hc
    rw [List.mem_flatMap] at hc
    obtain ⟨k, hk, hc⟩ := hc
    rw [List.mem_range] at hi
    rw [List.mem_range'_1] at hk
    exact line_family_sat hs hi hk.1 (by omega) hc
  · unfold create_column_constraints at hc
    rw [List.mem_flatMap] at hc
    obtain ⟨j, hj, hc⟩ := hc
    rw [List.mem_flatMap] at hc
    obtain ⟨k, hk, hc⟩ := hc
    rw [List.mem_range] at hj
    rw [List.mem_range'_1] at hk
    exact column_family_sat hs hj hk.1 (by omega) hc
  · unfold create_box_constraints at hc
    rw [List.mem_flatMap] at hc
    obtain ⟨br, hbr, hc⟩ := hc
    rw [List.mem_flatMap] at hc
    obtain ⟨bc, hbc, hc⟩ := hc
    rw [List.mem_flatMap] at hc
    obtain ⟨k, hk, hc⟩ := hc
    rw [List.mem_range] at hbr hbc
    rw [List.mem_range'_1] at hk
    exact box_family_sat hs hbr hbc hk.1 (by omega) hc
  · unfold create_value_constraints at hc
    rw [List.mem_flatMap] at hc
    obtain ⟨i, hi, hc⟩ := hc
    rw [List.mem_flatMap] at hc
    obtain ⟨j, hj, hc⟩ := hc
    rw [List.mem_range] at hi hj
    by_cases hz : getCell grid i j ≠ 0
    · rw [if_pos hz, List.mem_singleton] at hc
      subst hc
      have hsol := hext i hi j hj hz
      have hv := hs.2.1 i hi j hj
      have h1 : 1 ≤ (getCell grid i j).toNat := by omega
      have h9 : (getCell grid i j).toNat ≤ 9 := by omega
      have hb := cell_to_variable_bounds hi hj h1 h9
      refine ⟨_, List.mem_singleton.mpr rfl, ?_⟩
      refine (pos_mem_modelOf hb.1 hb.2).mpr ?_
      rw [solAgrees_encode hj h1 h9, beq_iff_eq, hsol]
      exact (Int.toNat_of_nonneg (by omega)).symm
    · rw [if_neg hz] at hc
      simp at hc

/-- Witness for C4: the single-given puzzle `witnessGrid`, solved by the
canonical model of `solvedGrid` (a concrete valid completion), keeps the
given digit 8 at the bottom-right cell. -/
theorem C4_givens_preserved_witness :
    gridWF witnessGrid ∧
    (∀ i < 9, ∀ j < 9, 0 ≤ getCell witnessGrid i j ∧ getCell witnessGrid i j ≤ 9) ∧
    (∀ l ∈ modelOf solvedGrid, l ≠ 0 ∧ l.natAbs ≤ 729) ∧
    (∀ v : Nat, 1 ≤ v → v ≤ 729 →
      (((v : Int) ∈ modelOf solvedGrid) ↔ ¬ (-(v : Int)) ∈ modelOf solvedGrid)) ∧
    (∀ c ∈ generate_problem witnessGrid, ∃ l ∈ c, l ∈ modelOf solvedGrid) ∧
    (∃ g, model_to_grid (modelOf solvedGrid) = some g ∧
      ∀ i < 9, ∀ j < 9, getCell witnessGrid i j ≠ 0 →
        getCell g i j = getCell witnessGrid i j) :=
  ⟨by decide, by decide,
   fun _ hl => modelOf_range hl,
   fun _ h1 h729 => modelOf_consistent h1 h729,
   modelOf_satisfies (by decide) (by decide),
   C4_givens_preserved witnessGrid (modelOf solvedGrid) (by decide) (by decide)
     (fun _ hl => modelOf_range hl)
     (fun _ h1 h729 => modelOf_consistent h1 h729)
     (modelOf_satisfies (by decide) (by decide))⟩

end Sudoku
